import Mathlib

/-!
# Verification of the sanic worker manager (`sanic/worker/manager.py`)

A shallow embedding of the supervisor (`WorkerManager`) from
`src/sanic/worker/manager.py`, together with proofs about the claims of
its specification.  Collaborator types (`ProcessState`, `Worker`,
`WorkerProcess`, the shared state table, the control channel) live outside
the given source tree; they are modelled from the spec's collaborator
contract (§6) only to the extent the manager's code consumes them.
Side-effecting calls (`process.start()`, `process.terminate()`,
`process.restart(**kwargs)`, `os.kill`, channel sends) are embedded as
explicit effect values so that "which call was issued to which process,
and how many times" is a provable statement.
-/

namespace SanicManager

/-- Modelled from the spec (§2, §9): `ProcessState` is a totally ordered
finite set of lifecycle stages of one worker process; the manager compares
states with `<` against the terminal `JOINED` rank and compares state
*names* (strings) against `ACKED.name` in the ack quorum.  The stages and
their order follow the spec's lifecycle description. -/
inductive ProcessState where
  | IDLE
  | RESTARTING
  | STARTING
  | STARTED
  | ACKED
  | JOINED
  | TERMINATED
deriving DecidableEq, Repr

/-- The integer rank of a lifecycle stage (spec §9: "explicit integer rank
table so `<` comparisons ... work deterministically"). -/
def ProcessState.rank : ProcessState → Nat
  | .IDLE => 0
  | .RESTARTING => 1
  | .STARTING => 2
  | .STARTED => 3
  | .ACKED => 4
  | .JOINED => 5
  | .TERMINATED => 6

instance : LT ProcessState := ⟨fun a b => a.rank < b.rank⟩

instance (a b : ProcessState) : Decidable (a < b) :=
  inferInstanceAs (Decidable (a.rank < b.rank))

/-- Modelled from the spec: the name of the acknowledged lifecycle stage,
`ProcessState.ACKED.name`, as written by a worker into the shared state
table and compared by `_all_workers_ack`. -/
def ackedName : String := "ACKED"

/-- Modelled from the spec (§6 collaborator contract): one `WorkerProcess`
as the manager observes it — `pid`, `name`, current `state`, and liveness
(`is_alive`). -/
structure Proc where
  name : String
  pid : Nat
  state : ProcessState
  alive : Bool
deriving DecidableEq, Repr

/-- Modelled from the spec (§6): a `Worker` is a named logical unit owning
an ordered list of `WorkerProcess` instances. -/
structure Worker where
  ident : String
  procs : List Proc
deriving DecidableEq, Repr

/-- One record of the shared state table, as the manager reads it:
`.get("state")` (absent key reads as `none`) and the truthiness of
`.get("server")` (the service-participant flag).  The supervisor's own
seed record `{"pid": pid}` has `state = none` and `server = false`. -/
structure StateRecord where
  pid : Nat
  state : Option String
  server : Bool
deriving DecidableEq, Repr

/-- The shared state table: an association list keyed by worker-process
identity. -/
abbrev Table := List (String × StateRecord)

/-- `self.worker_state[key] = record`: overwrite the record under `key`,
appending when absent. -/
def tableSet (t : Table) (key : String) (r : StateRecord) : Table :=
  if (t.map Prod.fst).contains key then
    t.map (fun kv => if kv.1 = key then (key, r) else kv)
  else
    t ++ [(key, r)]

/-- The `WorkerManager`'s own fields (from `__init__`): `num_server`,
the `transient` and `durable` worker lists, and the `terminated`
idempotence guard.  The channel handles and the context are collaborators
whose use is embedded as effects. -/
structure WorkerManager where
  num_server : Nat
  transient : List Worker
  durable : List Worker
  terminated : Bool
deriving DecidableEq, Repr

/-- `workers` property: `self.transient + self.durable`. -/
def WorkerManager.workers (m : WorkerManager) : List Worker :=
  m.transient ++ m.durable

/-- `processes` property: every process of every worker, transient first,
in list order. -/
def WorkerManager.processes (m : WorkerManager) : List Proc :=
  m.workers.flatMap Worker.procs

/-- `transient_processes` property: every process of every transient
worker, in list order. -/
def WorkerManager.transient_processes (m : WorkerManager) : List Proc :=
  m.transient.flatMap Worker.procs

/-- `_all_workers_ack`: build the list
`[ws.get("state") == ProcessState.ACKED.name | ws in table values if ws.get("server")]`
and return `all(acked) and len(acked) == self.num_server`. -/
def WorkerManager.all_workers_ack (m : WorkerManager) (t : Table) : Bool :=
  let acked := (t.filter (fun kv => kv.2.server)).map
    (fun kv => kv.2.state == some ackedName)
  acked.all id && acked.length == m.num_server

/-- The key under which the supervisor seeds its own record:
`"Sanic-Main"`. -/
def seedKey : String := "Sanic-Main"

/-- The supervisor's seed record `{"pid": self.pid}`: no `"state"` key and
no `"server"` flag. -/
def seedRecord (pid : Nat) : StateRecord :=
  { pid := pid, state := none, server := false }

/-- `manage(ident, func, kwargs, transient)`: append one `Worker` to the
chosen container (`self.transient` when `transient` else `self.durable`)
and nothing else.  The `Worker(...)` collaborator call is abstracted as a
ready-made `Worker` value. -/
def WorkerManager.manage (m : WorkerManager) (w : Worker) (transient : Bool) :
    WorkerManager :=
  if transient then { m with transient := m.transient ++ [w] }
  else { m with durable := m.durable ++ [w] }

/-- `WorkerProcess.SERVER_LABEL`, modelled from the spec: the stable label
prefix of the indexed naming convention for the initial service workers. -/
def serverLabel : String := "Sanic-Server"

/-- The name `f"{WorkerProcess.SERVER_LABEL}-{i}"` of the i-th initial
transient worker. -/
def workerIdent (i : Nat) : String := serverLabel ++ "-" ++ toString i

/-- The two signals for which `__init__` installs `shutdown_signal`. -/
inductive Sig where
  | SIGINT
  | SIGTERM
deriving DecidableEq, Repr

/-- Outcome of `WorkerManager.__init__`: the shared state table after the
constructor ran (it is an external object mutated in place, so it survives
a raise), the constructed manager or the `RuntimeError` message, and the
signal handlers that were installed. -/
structure InitResult where
  table : Table
  outcome : Except String WorkerManager
  handlersInstalled : List Sig
deriving Repr

/-- `WorkerManager.__init__(number, serve, server_settings, context,
monitor_pubsub, worker_state)`, step by step in source order:
set the plain fields, seed `worker_state["Sanic-Main"] = {"pid": self.pid}`,
set `terminated = False`, raise `RuntimeError` if `number == 0`, then
`manage` one transient worker per index `i < number`, then install the
`SIGINT`/`SIGTERM` handlers.  `mkW` abstracts the `Worker(ident, serve,
server_settings, context, worker_state)` collaborator constructor. -/
def initManager (number : Nat) (selfPid : Nat) (mkW : String → Worker)
    (ws : Table) : InitResult :=
  let m0 : WorkerManager :=
    { num_server := number, transient := [], durable := [], terminated := false }
  let ws1 := tableSet ws seedKey (seedRecord selfPid)
  if number == 0 then
    { table := ws1
      outcome := .error "Cannot serve with no workers"
      handlersInstalled := [] }
  else
    let m1 := (List.range number).foldl
      (fun m i => m.manage (mkW (workerIdent i)) true) m0
    { table := ws1
      outcome := .ok m1
      handlersInstalled := [Sig.SIGINT, Sig.SIGTERM] }

/-- `terminate()`: when the `terminated` guard is still clear, issue a
`process.terminate()` request to every process; in every case set
`terminated = True` afterwards.  Returns the updated manager and the pids
of the processes that received a request on this call. -/
def WorkerManager.terminateOp (m : WorkerManager) : WorkerManager × List Nat :=
  if !m.terminated then
    ({ m with terminated := true }, m.processes.map Proc.pid)
  else
    ({ m with terminated := true }, [])

/-- `n` successive calls of `terminate()`, concatenating the per-call
request lists. -/
def iterateTerminate (m : WorkerManager) : Nat → WorkerManager × List Nat
  | 0 => (m, [])
  | n + 1 =>
    let (m1, e1) := m.terminateOp
    let (m2, e2) := iterateTerminate m1 n
    (m2, e1 ++ e2)

/-- One `process.restart(**kwargs)` request as issued by
`WorkerManager.restart`: which process, and the forwarded context (the
`reloaded_files` keyword, the only context the monitor loop forwards). -/
structure RestartEffect where
  name : String
  pid : Nat
  ctx : Option String
deriving DecidableEq, Repr

/-- Python truthiness of the `process_names` argument: `None` and the
empty list are falsy. -/
def namesTruthy : Option (List String) → Bool
  | none => false
  | some l => !l.isEmpty

/-- `restart(process_names=None, **kwargs)`: for each process of
`transient_processes`, when `not process_names or process.name in
process_names`, call `process.restart(**kwargs)` forwarding the context
unchanged. -/
def WorkerManager.restartOp (m : WorkerManager)
    (process_names : Option (List String)) (ctx : Option String) :
    List RestartEffect :=
  (m.transient_processes.filter
    (fun p => !namesTruthy process_names ||
      (process_names.getD []).contains p.name)).map
    (fun p => { name := p.name, pid := p.pid, ctx := ctx })

/-- `shutdown()`: issue `process.terminate()` to every process that
`is_alive()`; no manager field is written (in particular `terminated`
stays as it was).  Returns the unchanged manager and the pids that
received a request. -/
def WorkerManager.shutdownOp (m : WorkerManager) : WorkerManager × List Nat :=
  (m, (m.processes.filter Proc.alive).map Proc.pid)

/-- `kill()`: send `SIGKILL` to every process by pid, logging name and
pid; afterwards `ServerKilled` is raised unconditionally (embedded by the
callers treating `kill` as a fatal exit).  Returns the `(name, pid)`
pairs signalled, in order. -/
def WorkerManager.killOp (m : WorkerManager) : List (String × Nat) :=
  m.processes.map (fun p => (p.name, p.pid))

/-! ## Monitor loop -/

/-- Helper for `message.split(":", 1)`: walk the characters, cut at the
first separator, keep the rest whole. -/
def splitFirstAux (c : Char) : List Char → List Char →
    List Char × Option (List Char)
  | [], acc => (acc.reverse, none)
  | x :: xs, acc =>
    if x = c then (acc.reverse, some xs) else splitFirstAux c xs (x :: acc)

/-- `message.split(":", 1)` as (part before the first separator, the rest
after it when a separator occurs). -/
def splitFirst (s : String) (c : Char) : String × Option String :=
  let (a, b) := splitFirstAux c s.toList []
  (String.mk a, b.map String.mk)

/-- `name.strip()`: drop leading and trailing whitespace. -/
def strip (s : String) : String :=
  String.mk
    (((s.toList.dropWhile Char.isWhitespace).reverse.dropWhile
      Char.isWhitespace).reverse)

/-- Helper for `processes.split(",")`: cut at every separator. -/
def splitAllAux (c : Char) : List Char → List Char → List (List Char)
  | [], acc => [acc.reverse]
  | x :: xs, acc =>
    if x = c then acc.reverse :: splitAllAux c xs []
    else splitAllAux c xs (x :: acc)

/-- `processes.split(",")` (the empty string yields one empty part, as in
Python). -/
def splitAll (s : String) (c : Char) : List String :=
  (splitAllAux c s.toList []).map String.mk

/-- `[name.strip() for name in processes.split(",")]`. -/
def parseNames (s : String) : List String :=
  (splitAll s ',').map strip

/-- What one monitor-loop iteration decides to do with a received
message. -/
inductive MonitorAction where
  | exitLoop
  | shutdownExit
  | dispatch (names : Option (List String)) (payload : Option String)
deriving DecidableEq, Repr

/-- The branch structure of one `monitor` iteration on a received message
(`recv` may deliver `None`, which is falsy like the empty string):
falsy → `break`; `"__TERMINATE__"` → `shutdown()` then `break`; otherwise
split once at `":"`, split the first part at `","` stripping the names,
and drop the filter entirely if `"__ALL_PROCESSES__"` is among them, then
call `restart(process_names=..., reloaded_files=...)`. -/
def monitorStep : Option String → MonitorAction
  | none => .exitLoop
  | some message =>
    if message.isEmpty then .exitLoop
    else if message == "__TERMINATE__" then .shutdownExit
    else
      let (processes, reloaded_files) := splitFirst message ':'
      let process_names := parseNames processes
      let names :=
        if process_names.contains "__ALL_PROCESSES__" then none
        else some process_names
      .dispatch names reloaded_files

/-- One poll of the monitor subscriber: `poll(0.1)` returned `False`, or
`recv()` returned a (possibly `None`) message. -/
inductive Poll where
  | empty
  | msg (m : Option String)
deriving DecidableEq, Repr

/-- An observable side effect issued by the manager to its collaborators,
in program order. -/
inductive Effect where
  | startP (pid : Nat)
  | sendMsg (msg : String)
  | killSig (name : String) (pid : Nat)
  | joinP (pid : Nat)
  | termReq (pid : Nat)
  | restartReq (name : String) (pid : Nat) (ctx : Option String)
deriving DecidableEq, Repr

/-- How the monitor loop ended. -/
inductive MonitorEnd where
  | exitedClean
  | exitedShutdown
  | outOfInput
deriving DecidableEq, Repr

/-- The `monitor` loop body after `wait_for_ack` (the
`InterruptedError` platform branch is signal-driven and outside this
sequential model): consume one poll result per iteration, dispatch per
`monitorStep`, and stop on the two `break` branches.  `outOfInput` marks
the cut-off of the modelled poll stream, where the real loop would keep
polling. -/
def monitorLoop (m : WorkerManager) : List Poll → List Effect × MonitorEnd
  | [] => ([], .outOfInput)
  | .empty :: rest => monitorLoop m rest
  | .msg message :: rest =>
    match monitorStep message with
    | .exitLoop => ([], .exitedClean)
    | .shutdownExit => (m.shutdownOp.2.map Effect.termReq, .exitedShutdown)
    | .dispatch names payload =>
      let fx := (m.restartOp names payload).map
        (fun r => Effect.restartReq r.name r.pid r.ctx)
      let (fx', e) := monitorLoop m rest
      (fx ++ fx', e)

/-! ## Startup barrier (`wait_for_ack`) -/

/-- `THRESHOLD = 300` ticks (100 ms each: 30 s). -/
def threshold : Nat := 300

/-- Which operator-facing diagnostic accompanies the kill escalation:
the initial "workers failed to come online in the allowed time" text, or
the dedicated "worker process terminated before startup was completed"
text installed on receiving the early-termination sentinel. -/
inductive DiagKind where
  | workersTooSlow
  | diedBeforeStartup
deriving DecidableEq, Repr

/-- What one `wait_for_ack` iteration does once the quorum check failed:
continue with an updated miss counter (re-emitting a consumed non-sentinel
message), or kill. -/
inductive AckTickResult where
  | proceed (misses : Nat) (emitted : Option String)
  | killed (diag : DiagKind)
deriving DecidableEq, Repr

/-- One `wait_for_ack` iteration after the `while not
self._all_workers_ack()` check, given the poll/recv result: a non-sentinel
message is re-sent on `monitor_publisher` and the loop `continue`s leaving
the miss counter untouched; the `"__TERMINATE_EARLY__"` sentinel sets
`misses = THRESHOLD` and installs the dedicated diagnostic; then `misses
+= 1` and `misses > THRESHOLD` triggers `kill()`. -/
def ackTick (misses : Nat) : Option String → AckTickResult
  | some msg =>
    if msg != "__TERMINATE_EARLY__" then .proceed misses (some msg)
    else
      let m := threshold + 1
      if m > threshold then .killed .diedBeforeStartup
      else .proceed m none
  | none =>
    let m := misses + 1
    if m > threshold then .killed .workersTooSlow
    else .proceed m none

/-- How the barrier ended: quorum reached, kill escalation, or the
modelled tick stream ran out while the real loop would still be
spinning. -/
inductive AckOutcome where
  | success
  | killedBy (d : DiagKind)
  | starved
deriving DecidableEq, Repr

/-- The full `wait_for_ack` loop over a stream of per-tick observations
(a shared-state snapshot for the loop-head quorum check, and the
poll/recv result for that tick).  On kill the `SIGKILL` effects of
`kill()` are emitted and the fatal outcome is returned. -/
def WorkerManager.waitForAckLoop (m : WorkerManager) (misses : Nat) :
    List (Table × Option String) → List Effect × AckOutcome
  | [] => ([], .starved)
  | (t, incoming) :: rest =>
    if m.all_workers_ack t then ([], .success)
    else
      match ackTick misses incoming with
      | .killed d =>
        (m.killOp.map (fun np => Effect.killSig np.1 np.2), .killedBy d)
      | .proceed misses' em =>
        let fx := match em with
          | some s => [Effect.sendMsg s]
          | none => []
        let (fx', out) := m.waitForAckLoop misses' rest
        (fx ++ fx', out)

/-! ## `join` -/

/-- Number of processes whose state is still below the terminal `JOINED`
rank (the ones a `join` pass would block on). -/
def countUnjoined (ps : List Proc) : Nat :=
  (ps.filter (fun p => decide (p.state < ProcessState.JOINED))).length

/-- One scan of `join`: every process with `state < ProcessState.JOINED`
is joined — `process.join()` blocks until that process exits, after which
its observed state has reached the `JOINED` rank (spec §3: `state <
JOINED` means "not yet fully exited"). -/
def joinPass (ps : List Proc) : List Proc :=
  ps.map (fun p =>
    if p.state < ProcessState.JOINED then
      { p with state := ProcessState.JOINED }
    else p)

theorem joined_not_lt : ¬ ProcessState.JOINED < ProcessState.JOINED := by
  decide

theorem countUnjoined_joinPass (ps : List Proc) :
    countUnjoined (joinPass ps) = 0 := by
  simp only [countUnjoined, List.length_eq_zero, List.filter_eq_nil_iff]
  intro p hp
  simp only [joinPass, List.mem_map] at hp
  obtain ⟨q, hq, rfl⟩ := hp
  by_cases h : q.state < ProcessState.JOINED
  · simp only [if_pos h, decide_eq_true_eq]
    exact joined_not_lt
  · simp only [if_neg h, decide_eq_true_eq]
    exact h

/-- The recursive `join`: one scan joins every not-yet-joined process; if
at least one join happened (`if joined:`), the whole scan repeats via
`self.join()`, at which point the re-evaluated `self.processes` also
yields processes added in the meantime by a concurrent `restart` —
modelled by the schedule `adds`, whose next batch becomes visible to the
next scan.  The function returns the process list as seen by the final,
zero-join scan. -/
def joinAll : List Proc → List (List Proc) → List Proc
  | ps, adds =>
    if _h : countUnjoined ps = 0 then ps
    else
      match adds with
      | [] => joinAll (joinPass ps) []
      | a :: rest => joinAll (joinPass ps ++ a) rest
termination_by ps adds => (adds.length, countUnjoined ps)
decreasing_by
  · apply Prod.Lex.right
    simp [countUnjoined_joinPass]
    omega
  · apply Prod.Lex.left
    simp

/-! ## The `run` sequence -/

/-- How a `run()` invocation ended: all four phases ran, `ServerKilled`
propagated out of the barrier's `kill()`, or the modelled barrier input
ran out. -/
inductive RunEnd where
  | completed (monitorEnd : MonitorEnd)
  | killedBy (d : DiagKind)
  | blocked
deriving DecidableEq, Repr

/-- `run()`: `start()` every process, then `monitor()` (which runs
`wait_for_ack` first), then `join()`, then `terminate()`.  When the
barrier escalates to `kill()`, the raised `ServerKilled` aborts the
sequence: no join and no terminate phase runs.  The join phase's effects
are its joins in the absence of concurrent additions (the sequential
projection of `joinAll` with an empty schedule). -/
def runOp (m : WorkerManager) (ackTicks : List (Table × Option String))
    (polls : List Poll) : List Effect × RunEnd :=
  let startFx := m.processes.map (fun p => Effect.startP p.pid)
  let (ackFx, out) := m.waitForAckLoop 0 ackTicks
  match out with
  | .killedBy d => (startFx ++ ackFx, .killedBy d)
  | .starved => (startFx ++ ackFx, .blocked)
  | .success =>
    let (monFx, me) := monitorLoop m polls
    let joinFx :=
      (m.processes.filter
        (fun p => decide (p.state < ProcessState.JOINED))).map
        (fun p => Effect.joinP p.pid)
    let termFx := m.terminateOp.2.map Effect.termReq
    (startFx ++ ackFx ++ monFx ++ joinFx ++ termFx, .completed me)

/-! ## Sample values used by witnesses and counterexamples -/

/-- A worker double with no processes yet (the `Worker` collaborator
constructor does not spawn; processes appear on `start`). -/
def mkWorkerStub (ident : String) : Worker := { ident := ident, procs := [] }

def sampleT0 : Proc :=
  { name := "Sanic-Server-0", pid := 11, state := ProcessState.ACKED, alive := true }

def sampleT1 : Proc :=
  { name := "Sanic-Server-1", pid := 12, state := ProcessState.ACKED, alive := true }

def sampleD0 : Proc :=
  { name := "Sanic-Reloader", pid := 20, state := ProcessState.STARTED, alive := true }

/-- A manager with two transient service workers and one durable
auxiliary worker. -/
def sampleManager : WorkerManager :=
  { num_server := 2
    transient := [{ ident := "Sanic-Server-0", procs := [sampleT0] },
                  { ident := "Sanic-Server-1", procs := [sampleT1] }]
    durable := [{ ident := "Sanic-Reloader", procs := [sampleD0] }]
    terminated := false }

/-! ## C1 — ack quorum predicate -/

/-- C1: `_all_workers_ack` is true iff every record flagged as a service
participant has state name `ACKED` and the count of flagged records
equals `num_server` exactly; mismatched or missing flagged records, or a
flagged count differing from `num_server` even when all present flagged
records are acknowledged, make it false; and prepending the supervisor's
own seed record (which carries no service flag) never changes the
predicate. -/
theorem ack_quorum_iff (m : WorkerManager) (t : Table) (pid : Nat) :
    (m.all_workers_ack t = true ↔
      ((∀ kv ∈ t, kv.2.server = true → kv.2.state = some ackedName) ∧
        (t.filter (fun kv => kv.2.server)).length = m.num_server)) ∧
    m.all_workers_ack ((seedKey, seedRecord pid) :: t) =
      m.all_workers_ack t := by
  constructor
  · simp only [WorkerManager.all_workers_ack, Bool.and_eq_true,
      List.all_eq_true, List.mem_map, List.mem_filter, beq_iff_eq,
      List.length_map, id]
    constructor
    · rintro ⟨h1, h2⟩
      refine ⟨fun kv hkv hs => ?_, h2⟩
      simpa using h1 _ ⟨kv, ⟨hkv, hs⟩, rfl⟩
    · rintro ⟨h1, h2⟩
      refine ⟨?_, h2⟩
      rintro b ⟨kv, ⟨hkv, hs⟩, rfl⟩
      simp [h1 kv hkv hs]
  · simp [WorkerManager.all_workers_ack, seedRecord]

/-! ## C2 — construction with zero workers (corrected) -/

/-- C2 counterexample: constructing with `number = 0` does raise the
fatal error, but the shared state table is NOT left unchanged — the
supervisor's seed record is written before the zero-worker check, so the
table is mutated even though construction fails. -/
theorem init_zero_mutates_table :
    (initManager 0 42 mkWorkerStub []).outcome =
      .error "Cannot serve with no workers" ∧
    (initManager 0 42 mkWorkerStub []).table ≠ [] := by
  constructor
  · rfl
  · simp [initManager, tableSet]

/-- C2 amended: constructing with `number = 0` raises the fatal
configuration error before any signal handler is installed and before any
worker is created or spawned, but the supervisor's identity record is
seeded into the shared state table regardless of success or failure (the
seed write precedes the zero-worker check, so the table is mutated even
when construction fails). -/
theorem init_zero_behaviour (pid : Nat) (mkW : String → Worker) (ws : Table) :
    (initManager 0 pid mkW ws).outcome =
      .error "Cannot serve with no workers" ∧
    (initManager 0 pid mkW ws).handlersInstalled = [] ∧
    (initManager 0 pid mkW ws).table = tableSet ws seedKey (seedRecord pid) ∧
    (∀ n, n ≠ 0 →
      (initManager n pid mkW ws).table =
        tableSet ws seedKey (seedRecord pid) ∧
      (initManager n pid mkW ws).handlersInstalled =
        [Sig.SIGINT, Sig.SIGTERM] ∧
      ∃ m, (initManager n pid mkW ws).outcome = .ok m) := by
  refine ⟨rfl, rfl, rfl, fun n hn => ?_⟩
  have h : (n == 0) = false := by simpa using hn
  refine ⟨?_, ?_, ?_⟩
  · simp [initManager, h]
  · simp [initManager, h]
  · refine ⟨(List.range n).foldl
      (fun m i => m.manage (mkW (workerIdent i)) true)
      { num_server := n, transient := [], durable := [], terminated := false },
      ?_⟩
    simp [initManager, h]

/-- C2 witness: the amended construction facts hold at `n = 1`. -/
theorem init_zero_behaviour_witness :
    (initManager 1 42 mkWorkerStub []).table =
      tableSet [] seedKey (seedRecord 42) ∧
    (initManager 1 42 mkWorkerStub []).handlersInstalled =
      [Sig.SIGINT, Sig.SIGTERM] ∧
    ∃ m, (initManager 1 42 mkWorkerStub []).outcome = .ok m :=
  (init_zero_behaviour 42 mkWorkerStub []).2.2.2 1 (by decide)

/-! ## C3 — construction counts and the `num_server = |transient|`
invariant (corrected) -/

theorem foldl_manage_transient (mkW : String → Worker) (l : List Nat)
    (m0 : WorkerManager) :
    l.foldl (fun m i => m.manage (mkW (workerIdent i)) true) m0 =
      { m0 with
        transient := m0.transient ++ l.map (fun i => mkW (workerIdent i)) } := by
  induction l generalizing m0 with
  | nil => simp
  | cons x xs ih =>
    rw [List.foldl_cons, ih]
    simp [WorkerManager.manage]

/-- C3 counterexample: the manager constructed with `N = 1` satisfies
`num_server = 1 = |transient|`, but a subsequent `manage` call with the
transient flag set appends to `transient`, after which
`|transient| = 2 ≠ 1 = num_server` — so the invariant is not preserved by
every subsequent operation including `manage`. -/
theorem manage_breaks_transient_invariant :
    (initManager 1 42 mkWorkerStub []).outcome =
      .ok (WorkerManager.mk 1 [mkWorkerStub (workerIdent 0)] [] false) ∧
    ((WorkerManager.mk 1 [mkWorkerStub (workerIdent 0)] [] false).manage
        (mkWorkerStub "extra") true).transient.length ≠
      ((WorkerManager.mk 1 [mkWorkerStub (workerIdent 0)] [] false).manage
        (mkWorkerStub "extra") true).num_server := by
  constructor
  · rfl
  · simp [WorkerManager.manage]

/-- C3 amended: for every `N ≥ 1`, construction yields exactly `N`
transient workers, zero durable workers and `num_server = N`;
`num_server` itself never changes under any subsequent operation, and the
invariant `num_server = |transient|` is preserved by every subsequent
manager-mutating operation except `manage` with the transient flag set,
which appends one worker to `transient` (post-construction `manage` calls
are durable in the spec's lifecycle, and durable `manage` preserves both
lists' lengths). -/
theorem construction_counts_and_invariant (n pid : Nat)
    (mkW : String → Worker) (ws : Table) (m : WorkerManager) (w : Worker)
    (hn : 1 ≤ n) :
    (∃ mc, (initManager n pid mkW ws).outcome = .ok mc ∧
      mc.transient.length = n ∧ mc.durable = [] ∧
      mc.num_server = n ∧ mc.terminated = false) ∧
    ((m.manage w false).num_server = m.num_server ∧
      (m.manage w false).transient = m.transient) ∧
    ((m.manage w true).num_server = m.num_server ∧
      (m.manage w true).transient.length = m.transient.length + 1) ∧
    (m.terminateOp.1.num_server = m.num_server ∧
      m.terminateOp.1.transient = m.transient) ∧
    m.shutdownOp.1 = m := by
  have h : (n == 0) = false := by
    simp only [beq_eq_false_iff_ne, ne_eq]
    omega
  refine ⟨?_, ?_, ?_, ?_, rfl⟩
  · refine ⟨⟨n, (List.range n).map (fun i => mkW (workerIdent i)), [], false⟩,
      ?_, ?_, rfl, rfl, rfl⟩
    · simp [initManager, h, foldl_manage_transient]
    · simp
  · simp [WorkerManager.manage]
  · simp [WorkerManager.manage]
  · unfold WorkerManager.terminateOp
    by_cases ht : m.terminated <;> simp [ht]

/-- C3 witness: the amended construction facts at `n = 1` with a concrete
manager and worker. -/
theorem construction_counts_and_invariant_witness :
    (∃ mc, (initManager 1 42 mkWorkerStub []).outcome = .ok mc ∧
      mc.transient.length = 1 ∧ mc.durable = [] ∧
      mc.num_server = 1 ∧ mc.terminated = false) ∧
    ((sampleManager.manage (mkWorkerStub "extra") false).num_server =
        sampleManager.num_server ∧
      (sampleManager.manage (mkWorkerStub "extra") false).transient =
        sampleManager.transient) ∧
    ((sampleManager.manage (mkWorkerStub "extra") true).num_server =
        sampleManager.num_server ∧
      (sampleManager.manage (mkWorkerStub "extra") true).transient.length =
        sampleManager.transient.length + 1) ∧
    (sampleManager.terminateOp.1.num_server = sampleManager.num_server ∧
      sampleManager.terminateOp.1.transient = sampleManager.transient) ∧
    sampleManager.shutdownOp.1 = sampleManager :=
  construction_counts_and_invariant 1 42 mkWorkerStub [] sampleManager
    (mkWorkerStub "extra") (by decide)

/-! ## C4 — idempotent terminate -/

theorem terminateOp_of_terminated (m : WorkerManager)
    (h : m.terminated = true) : m.terminateOp = (m, []) := by
  have hm : ({ m with terminated := true } : WorkerManager) = m := by
    cases m
    simp_all
  simp [WorkerManager.terminateOp, h, hm]

theorem iterateTerminate_of_terminated (m : WorkerManager) (n : Nat)
    (h : m.terminated = true) : iterateTerminate m n = (m, []) := by
  induction n with
  | zero => rfl
  | succ k ih =>
    simp [iterateTerminate, terminateOp_of_terminated m h, ih]

/-- C4: `terminate` is idempotent — starting from a manager whose
`terminated` guard is clear, any positive number of `terminate` calls
issues exactly one terminate request per process (the first call's full
pass and nothing more), and the guard ends set. -/
theorem terminate_idempotent (m : WorkerManager) (n : Nat)
    (hm : m.terminated = false) (hn : 1 ≤ n) :
    (iterateTerminate m n).2 = m.processes.map Proc.pid ∧
    (iterateTerminate m n).1.terminated = true := by
  obtain ⟨k, rfl⟩ : ∃ k, n = k + 1 := ⟨n - 1, by omega⟩
  have h1 : m.terminateOp =
      ({ m with terminated := true }, m.processes.map Proc.pid) := by
    simp [WorkerManager.terminateOp, hm]
  have h2 : iterateTerminate { m with terminated := true } k =
      ({ m with terminated := true }, []) :=
    iterateTerminate_of_terminated _ k rfl
  simp [iterateTerminate, h1, h2]

/-- C4 witness: two `terminate` calls on the sample manager issue exactly
one request per process. -/
theorem terminate_idempotent_witness :
    (iterateTerminate sampleManager 2).2 =
      sampleManager.processes.map Proc.pid ∧
    (iterateTerminate sampleManager 2).1.terminated = true :=
  terminate_idempotent sampleManager 2 (by decide) (by decide)

/-! ## C5 — restart dispatch -/

/-- C5: `restart` forwards the context unchanged to every request it
issues, and a request is issued precisely for the transient workers'
processes whose name passes the filter — the filter being absent
(`None`), the empty list, or containing the process's worker name.
Durable workers' processes never appear: the requests are exactly those
drawn from `transient_processes`. -/
theorem restart_filters_transient (m : WorkerManager)
    (process_names : Option (List String)) (ctx : Option String) :
    (∀ e ∈ m.restartOp process_names ctx, e.ctx = ctx) ∧
    (∀ e, e ∈ m.restartOp process_names ctx ↔
      ∃ p ∈ m.transient_processes,
        (process_names = none ∨ process_names = some [] ∨
          p.name ∈ process_names.getD []) ∧
        e = { name := p.name, pid := p.pid, ctx := ctx }) := by
  constructor
  · intro e he
    simp only [WorkerManager.restartOp, List.mem_map] at he
    obtain ⟨p, _, rfl⟩ := he
    rfl
  · intro e
    simp only [WorkerManager.restartOp, List.mem_map, List.mem_filter]
    constructor
    · rintro ⟨p, ⟨hp, hcond⟩, rfl⟩
      refine ⟨p, hp, ?_, rfl⟩
      cases process_names with
      | none => exact Or.inl rfl
      | some l =>
        simp only [namesTruthy, Bool.not_not, Option.getD_some,
          Bool.or_eq_true, List.isEmpty_iff, List.elem_iff] at hcond
        rcases hcond with h | h
        · exact Or.inr (Or.inl (by simp [h]))
        · exact Or.inr (Or.inr (by simpa using h))
    · rintro ⟨p, hp, hcond, rfl⟩
      refine ⟨p, ⟨hp, ?_⟩, rfl⟩
      rcases hcond with h | h | h
      · subst h; rfl
      · subst h; rfl
      · cases process_names with
        | none => rfl
        | some l =>
          simp only [Option.getD_some] at h
          simp [namesTruthy, List.elem_iff, h]

/-! ## C6 — monitor dispatch -/

theorem shutdownOp_alive (m : WorkerManager) :
    m.shutdownOp.2 = (m.processes.filter Proc.alive).map Proc.pid := rfl

/-- C6: in the monitor loop, a falsy message (absent or empty) exits the
loop with no effect and in particular no shutdown; `"__TERMINATE__"`
issues one terminate request per currently-alive process (the `shutdown`
path) and exits; any other message is dispatched to `restart` with the
comma-separated, stripped name list from before the first `":"` as the
filter — dropped entirely when `"__ALL_PROCESSES__"` is among the names —
and the part after the first `":"` forwarded unchanged as the payload,
after which the loop continues; concretely,
`"__ALL_PROCESSES__:changed.py"` restarts both transient processes of the
sample manager with payload `"changed.py"` and never its durable
process. -/
theorem monitor_dispatch (m : WorkerManager) (rest : List Poll)
    (msg : String) (h1 : msg ≠ "") (h2 : msg ≠ "__TERMINATE__") :
    monitorLoop m (.msg none :: rest) = ([], .exitedClean) ∧
    monitorLoop m (.msg (some "") :: rest) = ([], .exitedClean) ∧
    monitorLoop m (.msg (some "__TERMINATE__") :: rest) =
      ((m.processes.filter Proc.alive).map
        (fun p => Effect.termReq p.pid), .exitedShutdown) ∧
    (monitorStep (some msg) =
      .dispatch
        (if (parseNames (splitFirst msg ':').1).contains "__ALL_PROCESSES__"
          then none else some (parseNames (splitFirst msg ':').1))
        (splitFirst msg ':').2 ∧
      monitorLoop m (.msg (some msg) :: rest) =
        ((m.restartOp
            (if (parseNames
                  (splitFirst msg ':').1).contains "__ALL_PROCESSES__"
              then none else some (parseNames (splitFirst msg ':').1))
            (splitFirst msg ':').2).map
          (fun r => Effect.restartReq r.name r.pid r.ctx) ++
          (monitorLoop m rest).1, (monitorLoop m rest).2)) ∧
    monitorLoop sampleManager
        [.msg (some "__ALL_PROCESSES__:changed.py"), .msg none] =
      ([Effect.restartReq "Sanic-Server-0" 11 (some "changed.py"),
        Effect.restartReq "Sanic-Server-1" 12 (some "changed.py")],
       .exitedClean) := by
  have he : msg.isEmpty = false := by
    cases hb : msg.isEmpty
    · rfl
    · exact absurd ((String.isEmpty_iff msg).mp hb) h1
  have ht : (msg == "__TERMINATE__") = false := by
    simpa using h2
  have hstep : monitorStep (some msg) =
      .dispatch
        (if (parseNames (splitFirst msg ':').1).contains "__ALL_PROCESSES__"
          then none else some (parseNames (splitFirst msg ':').1))
        (splitFirst msg ':').2 := by
    simp [monitorStep, he, ht]
  have hT : monitorStep (some "__TERMINATE__") = .shutdownExit := by decide
  have hE : monitorStep (some "") = .exitLoop := by decide
  refine ⟨rfl, ?_, ?_, ⟨hstep, ?_⟩, by decide⟩
  · simp [monitorLoop, hE]
  · simp [monitorLoop, hT, WorkerManager.shutdownOp, List.map_map,
      Function.comp]
  · simp only [monitorLoop, hstep]

/-- C6 witness: the general dispatch clause at the concrete message
`"Sanic-Server-0:app.py"`. -/
theorem monitor_dispatch_witness :
    monitorLoop sampleManager (.msg none :: []) = ([], .exitedClean) ∧
    monitorLoop sampleManager (.msg (some "") :: []) = ([], .exitedClean) ∧
    monitorLoop sampleManager (.msg (some "__TERMINATE__") :: []) =
      ((sampleManager.processes.filter Proc.alive).map
        (fun p => Effect.termReq p.pid), .exitedShutdown) ∧
    (monitorStep (some "Sanic-Server-0:app.py") =
      .dispatch
        (if (parseNames
              (splitFirst "Sanic-Server-0:app.py" ':').1).contains
            "__ALL_PROCESSES__"
          then none
          else some (parseNames (splitFirst "Sanic-Server-0:app.py" ':').1))
        (splitFirst "Sanic-Server-0:app.py" ':').2 ∧
      monitorLoop sampleManager (.msg (some "Sanic-Server-0:app.py") :: []) =
        ((sampleManager.restartOp
            (if (parseNames
                  (splitFirst "Sanic-Server-0:app.py" ':').1).contains
                "__ALL_PROCESSES__"
              then none
              else some (parseNames
                (splitFirst "Sanic-Server-0:app.py" ':').1))
            (splitFirst "Sanic-Server-0:app.py" ':').2).map
          (fun r => Effect.restartReq r.name r.pid r.ctx) ++
          (monitorLoop sampleManager []).1,
         (monitorLoop sampleManager []).2)) ∧
    monitorLoop sampleManager
        [.msg (some "__ALL_PROCESSES__:changed.py"), .msg none] =
      ([Effect.restartReq "Sanic-Server-0" 11 (some "changed.py"),
        Effect.restartReq "Sanic-Server-1" 12 (some "changed.py")],
       .exitedClean) :=
  monitor_dispatch sampleManager [] "Sanic-Server-0:app.py"
    (by decide) (by decide)

/-! ## C7 — early termination during the barrier -/

/-- C7: receiving `"__TERMINATE_EARLY__"` during the ack barrier
escalates to kill on that same tick, whatever the current miss count
(no waiting for the 300-tick threshold), with the dedicated
died-before-startup diagnostic; at the loop level the kill signals are
issued immediately.  Any other message received during the barrier is
re-emitted on the publish side of the channel and the loop proceeds with
the miss counter untouched. -/
theorem ack_barrier_early_terminate (m : WorkerManager) (misses : Nat)
    (msg : String) (t : Table) (rest : List (Table × Option String))
    (hmsg : msg ≠ "__TERMINATE_EARLY__")
    (hq : m.all_workers_ack t = false) :
    ackTick misses (some "__TERMINATE_EARLY__") =
      .killed .diedBeforeStartup ∧
    m.waitForAckLoop misses ((t, some "__TERMINATE_EARLY__") :: rest) =
      (m.killOp.map (fun np => Effect.killSig np.1 np.2),
        .killedBy .diedBeforeStartup) ∧
    ackTick misses (some msg) = .proceed misses (some msg) ∧
    m.waitForAckLoop misses ((t, some msg) :: rest) =
      (Effect.sendMsg msg :: (m.waitForAckLoop misses rest).1,
        (m.waitForAckLoop misses rest).2) := by
  have h1 : ackTick misses (some "__TERMINATE_EARLY__") =
      .killed .diedBeforeStartup := by
    simp [ackTick, threshold]
  have h3 : ackTick misses (some msg) = .proceed misses (some msg) := by
    have : (msg != "__TERMINATE_EARLY__") = true := by
      simpa [bne_iff_ne] using hmsg
    simp [ackTick, this]
  refine ⟨h1, ?_, h3, ?_⟩
  · simp [WorkerManager.waitForAckLoop, hq, h1]
  · simp [WorkerManager.waitForAckLoop, hq, h3]

/-- C7 witness: the barrier facts at miss count 0 with the message
`"hello"` and an empty table (no acks, quorum false). -/
theorem ack_barrier_early_terminate_witness :
    ackTick 0 (some "__TERMINATE_EARLY__") = .killed .diedBeforeStartup ∧
    sampleManager.waitForAckLoop 0 ((([] : Table), some "__TERMINATE_EARLY__") :: []) =
      (sampleManager.killOp.map (fun np => Effect.killSig np.1 np.2),
        .killedBy .diedBeforeStartup) ∧
    ackTick 0 (some "hello") = .proceed 0 (some "hello") ∧
    sampleManager.waitForAckLoop 0 ((([] : Table), some "hello") :: []) =
      (Effect.sendMsg "hello" :: (sampleManager.waitForAckLoop 0 []).1,
        (sampleManager.waitForAckLoop 0 []).2) :=
  ack_barrier_early_terminate sampleManager 0 "hello" [] []
    (by decide) (by decide)

/-! ## C8 — threshold exhaustion, kill, and the aborted run sequence -/

theorem ack_starvation_kills (m : WorkerManager) (t : Table)
    (k misses : Nat) (hq : m.all_workers_ack t = false)
    (hk : 301 ≤ misses + k) (hm : misses ≤ 300) :
    m.waitForAckLoop misses (List.replicate k (t, none)) =
      (m.killOp.map (fun np => Effect.killSig np.1 np.2),
        .killedBy .workersTooSlow) := by
  induction k generalizing misses with
  | zero => omega
  | succ n ih =>
    rw [List.replicate_succ]
    by_cases hend : misses = 300
    · subst hend
      have hka : ackTick 300 none = .killed .workersTooSlow := by
        simp [ackTick, threshold]
      simp [WorkerManager.waitForAckLoop, hq, hka]
    · have hlt : ¬ (misses + 1 > threshold) := by
        simp only [threshold]
        omega
      have hstep : ackTick misses none = .proceed (misses + 1) none := by
        simp [ackTick, hlt]
      have hrec := ih (misses + 1) (by omega) (by omega)
      simp [WorkerManager.waitForAckLoop, hq, hstep, hrec]

/-- C8: when the quorum predicate never becomes true and no message
arrives, the barrier's miss counter exceeds the 300-tick threshold and
`kill` runs exactly once: the whole `run` trace is the start requests
followed by exactly one `SIGKILL` per process (name and pid logged), the
fatal killed outcome propagates, and no join and no terminate request of
the run sequence is ever issued after the kill. -/
theorem kill_aborts_run (m : WorkerManager) (t : Table) (polls : List Poll)
    (k : Nat) (hq : m.all_workers_ack t = false) (hk : 301 ≤ k) :
    runOp m (List.replicate k (t, none)) polls =
      (m.processes.map (fun p => Effect.startP p.pid) ++
        m.processes.map (fun p => Effect.killSig p.name p.pid),
       .killedBy .workersTooSlow) ∧
    ∀ e ∈ (runOp m (List.replicate k (t, none)) polls).1,
      (∀ pid, e ≠ Effect.joinP pid) ∧ (∀ pid, e ≠ Effect.termReq pid) := by
  have hak := ack_starvation_kills m t k 0 hq (by omega) (by omega)
  have hrun : runOp m (List.replicate k (t, none)) polls =
      (m.processes.map (fun p => Effect.startP p.pid) ++
        m.processes.map (fun p => Effect.killSig p.name p.pid),
       .killedBy .workersTooSlow) := by
    simp [runOp, hak, WorkerManager.killOp, List.map_map, Function.comp]
  refine ⟨hrun, ?_⟩
  rw [hrun]
  intro e he
  simp only [List.mem_append, List.mem_map] at he
  rcases he with ⟨p, _, rfl⟩ | ⟨p, _, rfl⟩ <;>
    exact ⟨fun pid => by simp, fun pid => by simp⟩

/-- C8 witness: the aborted-run trace at exactly 301 starvation ticks on
the sample manager. -/
theorem kill_aborts_run_witness :
    runOp sampleManager (List.replicate 301 (([] : Table), none)) [] =
      (sampleManager.processes.map (fun p => Effect.startP p.pid) ++
        sampleManager.processes.map (fun p => Effect.killSig p.name p.pid),
       .killedBy .workersTooSlow) :=
  (kill_aborts_run sampleManager [] [] 301 (by decide) (by decide)).1

/-! ## C9 — join as a fixed point -/

theorem joinAll_unjoined_zero (ps : List Proc) (adds : List (List Proc)) :
    countUnjoined (joinAll ps adds) = 0 := by
  induction adds generalizing ps with
  | nil =>
    by_cases h : countUnjoined ps = 0
    · rw [joinAll.eq_def]
      simp [h]
    · rw [joinAll.eq_def]
      simp only [h, dif_neg, not_false_iff]
      rw [joinAll.eq_def]
      simp [countUnjoined_joinPass]
  | cons a rest ih =>
    by_cases h : countUnjoined ps = 0
    · rw [joinAll.eq_def]
      simp [h]
    · rw [joinAll.eq_def]
      simp only [h, dif_neg, not_false_iff]
      exact ih _

/-- C9: `join` joins every process below the terminal `JOINED` rank and
returns exactly when a full pass over all processes produces zero joins —
the returned view has no unjoined process left; a zero-join first pass
returns immediately; and whenever a pass did join something, the whole
scan repeats on the re-evaluated process list, in which processes added
mid-pass by a concurrent restart now appear and are joined too. -/
theorem join_fixed_point (ps a : List Proc) (adds rest : List (List Proc)) :
    countUnjoined (joinAll ps adds) = 0 ∧
    (countUnjoined ps = 0 → joinAll ps adds = ps) ∧
    (countUnjoined ps ≠ 0 →
      joinAll ps (a :: rest) = joinAll (joinPass ps ++ a) rest ∧
      joinAll ps [] = joinAll (joinPass ps) []) := by
  refine ⟨joinAll_unjoined_zero ps adds, fun h => ?_, fun h => ⟨?_, ?_⟩⟩
  · rw [joinAll.eq_def]
    simp [h]
  · rw [joinAll.eq_def]
    simp [h]
  · rw [joinAll.eq_def]
    simp [h]

/-- C9 witness: a pass over one unjoined process repeats and picks up a
newcomer, and the final view has zero unjoined processes. -/
theorem join_fixed_point_witness :
    countUnjoined (joinAll [sampleD0] [[sampleT0]]) = 0 ∧
    joinAll [sampleD0] [[sampleT0]] =
      joinAll (joinPass [sampleD0] ++ [sampleT0]) [] ∧
    joinAll [sampleD0] [] = joinAll (joinPass [sampleD0]) [] := by
  have h := join_fixed_point [sampleD0] [sampleT0] [[sampleT0]] []
  exact ⟨h.1, (h.2.2 (by decide)).1, (h.2.2 (by decide)).2⟩

/-! ## C10 — shutdown versus terminate (frame effect) -/

/-- C10: `shutdown` issues terminate requests only to currently-alive
processes and leaves the manager — in particular the `terminated` flag —
untouched; hence a `terminate` call made after `shutdown` still issues a
request to every process, and any process alive at shutdown time receives
at least two terminate requests across the pair of calls. -/
theorem shutdown_then_terminate (m : WorkerManager)
    (h : m.terminated = false) :
    m.shutdownOp.1 = m ∧
    m.shutdownOp.1.terminated = false ∧
    m.shutdownOp.2 = (m.processes.filter Proc.alive).map Proc.pid ∧
    m.shutdownOp.1.terminateOp.2 = m.processes.map Proc.pid ∧
    ∀ p ∈ m.processes, p.alive = true →
      2 ≤ (m.shutdownOp.2 ++ m.shutdownOp.1.terminateOp.2).count p.pid := by
  have hterm : m.shutdownOp.1.terminateOp.2 = m.processes.map Proc.pid := by
    simp [WorkerManager.shutdownOp, WorkerManager.terminateOp, h]
  refine ⟨rfl, h, rfl, hterm, ?_⟩
  intro p hp hal
  rw [List.count_append]
  have h1 : p.pid ∈ m.shutdownOp.2 := by
    simp only [WorkerManager.shutdownOp, List.mem_map, List.mem_filter]
    exact ⟨p, ⟨hp, hal⟩, rfl⟩
  have h2 : p.pid ∈ m.shutdownOp.1.terminateOp.2 := by
    rw [hterm]
    exact List.mem_map_of_mem Proc.pid hp
  have c1 : 0 < m.shutdownOp.2.count p.pid := List.count_pos_iff.mpr h1
  have c2 : 0 < (m.shutdownOp.1.terminateOp.2).count p.pid :=
    List.count_pos_iff.mpr h2
  omega

/-- C10 witness: the alive process `sampleT0` receives two terminate
requests across a `shutdown` followed by a `terminate`. -/
theorem shutdown_then_terminate_witness :
    2 ≤ (sampleManager.shutdownOp.2 ++
      sampleManager.shutdownOp.1.terminateOp.2).count sampleT0.pid :=
  (shutdown_then_terminate sampleManager (by decide)).2.2.2.2 sampleT0
    (by decide) (by decide)

end SanicManager
